import Mathlib

/-!
Shallow embedding of the rplidar-a1 acquisition and processing pipeline.

Each namespace below embeds one Python module of the repository:
`utils` (lifecycle FSM), `lidar_driver` (frame acquisition and safe
shutdown), `lidar_processing` (validation and projection),
`lidar_driver_csv` (replay loader) and `record_scan` (decimated capture).

Numeric conventions of the embedding: Python floats are modelled as
rationals, Python ints as integers.  The transcendental helpers
`math.radians`, `math.cos` and `math.sin` are abstracted as function
parameters since their values are not rational.
-/

namespace utils

/-- States of the lifecycle FSM, from the State enum of utils.py. -/
inductive State where
  | INIT
  | DIAG
  | SCAN
  | STOP
  | DONE
  | ERROR
  deriving DecidableEq, Repr

/-- Embedding of a Python dict lookup (dict.get with no default): first
matching key wins, missing key gives none. -/
def dictGet (k : State × String) : List ((State × String) × State) → Option State
  | [] => none
  | (k', v) :: rest => if k = k' then some v else dictGet k rest

/-- The transition table literal of utils.transition. -/
def transitions : List ((State × String) × State) :=
  [ ((State.INIT, "diag_ok"), State.DIAG),
    ((State.INIT, "diag_fail"), State.ERROR),
    ((State.DIAG, "start"), State.SCAN),
    ((State.SCAN, "stop"), State.STOP),
    ((State.STOP, "diag_ok"), State.DONE),
    ((State.STOP, "start"), State.DONE),
    ((State.STOP, "stop"), State.DONE) ]

/-- utils.transition: the global error rule is evaluated first, then the
table, and an unmatched pair returns the current state (dict.get default). -/
def transition (state : State) (event : String) : State :=
  if event = "error" then State.ERROR
  else (dictGet (state, event) transitions).getD state

end utils

namespace lidar_driver

/-- A point stored in a frame: (quality, angle_deg, dist_mm) after the
int()/float() casts performed at append time. -/
abbrev ScanPoint : Type := Int × ℚ × ℚ

/-- A raw measurement triple (quality, angle, distance) as produced by
iter_scans, before any cast. -/
abbrev RawPoint : Type := ℚ × ℚ × ℚ

/-- One full sweep of the sensor: timestamp plus filtered points. -/
structure ScanFrame where
  t : ℚ
  pts : List ScanPoint
  deriving DecidableEq, Repr

/-- Acquisition-stage quality threshold of lidar_driver.py. -/
def QUALITY_MIN : ℚ := 10

/-- Acquisition-stage minimum distance (mm) of lidar_driver.py. -/
def DIST_MIN_MM : ℚ := 150

/-- Acquisition-stage maximum distance (mm) of lidar_driver.py. -/
def DIST_MAX_MM : ℚ := 12000

/-- Python int() on a float value: truncation toward zero. -/
def pyInt (q : ℚ) : Int := if q < 0 then -(⌊-q⌋) else ⌊q⌋

/-- The inner filtering loop of LidarDriver.frames over one raw scan. -/
def framePts : List RawPoint → List ScanPoint
  | [] => []
  | (q, a, d) :: rest =>
    if d ≤ 0 ∨ q < QUALITY_MIN then framePts rest
    else if ¬ (DIST_MIN_MM ≤ d ∧ d ≤ DIST_MAX_MM) then framePts rest
    else (pyInt q, a, d) :: framePts rest

/-- The generator loop of LidarDriver.frames: filter each raw scan and
yield it only when nonempty; `time` supplies the k-th timestamp taken at
the k-th yield. -/
def framesAux (time : Nat → ℚ) : Nat → List (List RawPoint) → List ScanFrame
  | _, [] => []
  | k, scan :: rest =>
    let pts := framePts scan
    if pts = [] then framesAux time k rest
    else ⟨time k, pts⟩ :: framesAux time (k + 1) rest

/-- LidarDriver.frames on a finite prefix of the raw scan stream. -/
def frames (time : Nat → ℚ) (scans : List (List RawPoint)) : List ScanFrame :=
  framesAux time 0 scans

/-- Observable steps of LidarDriver.shutdown_safe, in execution order. -/
inductive ShutdownEvent where
  | stopScan
  | stopMotor
  | warnLog
  | disconnect
  deriving DecidableEq, Repr

/-- LidarDriver.shutdown_safe as a trace of steps.  `stopRaises` and
`stopMotorRaises` say whether self.lidar.stop() resp. stop_motor() raise.
The single try block covers both stop calls, the except clause prints the
warning, and the finally clause runs disconnect. -/
def shutdown_safe (stopRaises stopMotorRaises : Bool) : List ShutdownEvent :=
  let tryPart :=
    if stopRaises then [ShutdownEvent.stopScan, ShutdownEvent.warnLog]
    else if stopMotorRaises then
      [ShutdownEvent.stopScan, ShutdownEvent.stopMotor, ShutdownEvent.warnLog]
    else [ShutdownEvent.stopScan, ShutdownEvent.stopMotor]
  tryPart ++ [ShutdownEvent.disconnect]

end lidar_driver

namespace lidar_driver_csv

/-- One CSV sample of the replay variant: (quality, angle, measure_m, ok). -/
structure LidarSample where
  quality : Int
  angle : ℚ
  measure_m : ℚ
  ok : Int
  deriving DecidableEq, Repr

/-- The exact header required by read_scan_csv. -/
def CSV_HEADER : List String := ["quality", "angle", "measure_m", "ok"]

/-- read_scan_csv on an already-tokenised file, given as its header row and
its typed data rows: the header is compared to CSV_HEADER by exact list
equality (names, order and case all significant) before any row is read,
and on a match the row loop appends every row in order. -/
def read_scan_csv (header : List String) (rows : List LidarSample) :
    Except String (List LidarSample) :=
  if header ≠ CSV_HEADER then
    Except.error "Header invalido"
  else
    Except.ok (rows.foldl (fun samples r => samples ++ [r]) [])

end lidar_driver_csv

namespace lidar_processing

/-- Analysis-stage quality threshold of lidar_processing.py. -/
def QUALITY_MIN : Int := 20

/-- Analysis-stage minimum distance (m) of lidar_processing.py. -/
def DIST_MIN_M : ℚ := 0.20

/-- Analysis-stage maximum distance (m) of lidar_processing.py. -/
def DIST_MAX_M : ℚ := 10.0

/-- lidar_processing.is_valid, translated guard by guard. -/
def is_valid (s : lidar_driver_csv.LidarSample) : Bool :=
  if s.ok ≠ 1 then false
  else if s.quality < QUALITY_MIN then false
  else if ¬ (DIST_MIN_M < s.measure_m ∧ s.measure_m ≤ DIST_MAX_M) then false
  else true

/-- lidar_processing.polar_to_xy.  The calls math.radians, math.cos and
math.sin are abstracted as the parameters radf, cosf and sinf, since their
results are not rational; the code computes rad = radf(angle) and returns
(measure_m * cosf(rad), measure_m * sinf(rad)). -/
def polar_to_xy (radf cosf sinf : ℚ → ℚ) (s : lidar_driver_csv.LidarSample) :
    ℚ × ℚ :=
  let rad := radf s.angle
  (s.measure_m * cosf rad, s.measure_m * sinf rad)

/-- An output row of filter_and_project: (x, y, quality, angle, measure_m). -/
abbrev Projected : Type := ℚ × ℚ × Int × ℚ × ℚ

/-- lidar_processing.filter_and_project: keep each sample passing is_valid,
in input order, projected through polar_to_xy. -/
def filter_and_project (radf cosf sinf : ℚ → ℚ) :
    List lidar_driver_csv.LidarSample → List Projected
  | [] => []
  | s :: rest =>
    if is_valid s then
      let xy := polar_to_xy radf cosf sinf s
      (xy.1, xy.2, s.quality, s.angle, s.measure_m) ::
        filter_and_project radf cosf sinf rest
    else filter_and_project radf cosf sinf rest

end lidar_processing

namespace record_scan

variable {α : Type}

/-- The decimation test of record_scan.main over the points of the raw
stream: the counter raw_pts is incremented for every incoming point and the
point is written exactly when the incremented counter is divisible by the
factor n. -/
def decimationLoop (n : Nat) : Nat → List α → List α
  | _, [] => []
  | raw_pts, p :: ps =>
    let c := raw_pts + 1
    if c % n ≠ 0 then decimationLoop n c ps
    else p :: decimationLoop n c ps

/-- Decimation of a whole stream, counter starting at zero. -/
def decimate (n : Nat) (pts : List α) : List α := decimationLoop n 0 pts

/-- The frame loop of record_scan.main: the raw_pts counter is global, it
carries over from one frame to the next without being reset. -/
def recordAux (n : Nat) : Nat → List (List α) → List α
  | _, [] => []
  | c, fr :: frs => decimationLoop n c fr ++ recordAux n (c + fr.length) frs

/-- record_scan.main restricted to its decimation behaviour: the factor
arrives as a Python int and is rejected with ValueError before any
streaming when it is smaller than 1. -/
def main (decimation : Int) (frames : List (List α)) : Except String (List α) :=
  if decimation < 1 then Except.error "El factor de decimacion debe ser >= 1"
  else Except.ok (recordAux decimation.toNat 0 frames)

end record_scan

/-! Helper lemmas shared by the claim theorems. -/

/-- A key absent from an association list is not found by dictGet. -/
theorem utils.dictGet_eq_none (k : utils.State × String)
    (l : List ((utils.State × String) × utils.State))
    (h : k ∉ l.map Prod.fst) : utils.dictGet k l = none := by
  induction l with
  | nil => rfl
  | cons kv rest ih =>
    obtain ⟨k', v⟩ := kv
    simp only [List.map_cons, List.mem_cons] at h
    push_neg at h
    simp only [utils.dictGet, if_neg h.1]
    exact ih h.2

/-! Claim theorems for the lifecycle FSM (utils.py). -/

/-- C2, counterexample: the claim says transition(Done, e) = Done for every
event e including "error", but the global error rule fires first and sends
Done to Error. -/
theorem transition_done_error_escapes :
    utils.transition utils.State.DONE "error" ≠ utils.State.DONE := by
  decide

/-- C2, amended: Error is terminal for every event; Done is terminal for
every event other than "error", while the event "error" moves Done to
Error because the global error rule is evaluated first. -/
theorem transition_error_done_terminal :
    (∀ e : String, utils.transition utils.State.ERROR e = utils.State.ERROR)
    ∧ (∀ e : String, e ≠ "error" →
        utils.transition utils.State.DONE e = utils.State.DONE)
    ∧ utils.transition utils.State.DONE "error" = utils.State.ERROR := by
  refine ⟨fun e => ?_, fun e he => ?_, by decide⟩
  · unfold utils.transition
    split
    · rfl
    · rfl
  · unfold utils.transition
    rw [if_neg he]
    rfl

/-- C2, witness: the amended theorem evaluated at the event "start". -/
theorem transition_error_done_terminal_witness :
    utils.transition utils.State.DONE "start" = utils.State.DONE :=
  transition_error_done_terminal.2.1 "start" (by decide)

/-- C3, counterexample: the claim says transition(Stop, e) = Done for every
event e, but "error" sends Stop to Error and "diag_fail" matches no table
entry for Stop, so the state stays Stop. -/
theorem transition_stop_not_always_done :
    utils.transition utils.State.STOP "error" ≠ utils.State.DONE
    ∧ utils.transition utils.State.STOP "diag_fail" ≠ utils.State.DONE := by
  constructor
  · decide
  · decide

/-- C3, amended: from Stop, exactly the events "diag_ok", "start" and
"stop" reach Done; "error" reaches Error via the global rule, and every
other event (such as "diag_fail") leaves the state at Stop. -/
theorem transition_stop_behaviour :
    utils.transition utils.State.STOP "diag_ok" = utils.State.DONE
    ∧ utils.transition utils.State.STOP "start" = utils.State.DONE
    ∧ utils.transition utils.State.STOP "stop" = utils.State.DONE
    ∧ utils.transition utils.State.STOP "error" = utils.State.ERROR
    ∧ ∀ e : String, e ≠ "diag_ok" → e ≠ "start" → e ≠ "stop" → e ≠ "error" →
        utils.transition utils.State.STOP e = utils.State.STOP := by
  refine ⟨by decide, by decide, by decide, by decide, fun e h1 h2 h3 h4 => ?_⟩
  unfold utils.transition
  rw [if_neg h4]
  simp [utils.dictGet, utils.transitions, h1, h2, h3]

/-- C3, witness: the amended theorem evaluated at the event "diag_fail". -/
theorem transition_stop_behaviour_witness :
    utils.transition utils.State.STOP "diag_fail" = utils.State.STOP :=
  transition_stop_behaviour.2.2.2.2 "diag_fail"
    (by decide) (by decide) (by decide) (by decide)

/-- C4: transition is total; the event "error" maps every state to Error
(this global rule precedes the table), and any (state, event) pair that is
neither the error event nor a key of the transition table returns the
current state unchanged. -/
theorem transition_total_contract :
    (∀ s : utils.State, utils.transition s "error" = utils.State.ERROR)
    ∧ (∀ (s : utils.State) (e : String), e ≠ "error" →
        (s, e) ∉ utils.transitions.map Prod.fst →
        utils.transition s e = s) := by
  refine ⟨fun s => ?_, fun s e he h => ?_⟩
  · unfold utils.transition
    rw [if_pos rfl]
  · unfold utils.transition
    rw [if_neg he, utils.dictGet_eq_none _ _ h]
    rfl

/-- C4, witness: the no-op clause evaluated at the pair (Diag, "stop"),
which is not a key of the table. -/
theorem transition_total_contract_witness :
    utils.transition utils.State.DIAG "stop" = utils.State.DIAG :=
  transition_total_contract.2 utils.State.DIAG "stop" (by decide) (by decide)

/-! Claim theorems for the shutdown sequence (lidar_driver.py). -/

/-- C1, counterexample: the claim says a failure of stop-of-scan does not
prevent the subsequent steps from running, but the single try block covers
both stop calls, so when stop() raises, stop_motor() is never executed. -/
theorem shutdown_safe_skips_stop_motor :
    lidar_driver.ShutdownEvent.stopMotor ∉ lidar_driver.shutdown_safe true false := by
  decide

/-- C1, amended: shutdown_safe always starts with stop-of-scan and the
executed steps keep the order stop-of-scan, stop-of-motor, close; a failure
inside the try block is only logged; the close step runs exactly once, last,
on every path; but stop-of-motor runs only when stop-of-scan did not fail. -/
theorem shutdown_safe_order_guaranteed_close (b1 b2 : Bool) :
    (lidar_driver.shutdown_safe b1 b2).head? = some lidar_driver.ShutdownEvent.stopScan
    ∧ (lidar_driver.shutdown_safe b1 b2).getLast? =
        some lidar_driver.ShutdownEvent.disconnect
    ∧ (lidar_driver.shutdown_safe b1 b2).count lidar_driver.ShutdownEvent.disconnect = 1
    ∧ List.Sublist
        ((lidar_driver.shutdown_safe b1 b2).filter
          (fun x => x ≠ lidar_driver.ShutdownEvent.warnLog))
        [lidar_driver.ShutdownEvent.stopScan, lidar_driver.ShutdownEvent.stopMotor,
          lidar_driver.ShutdownEvent.disconnect]
    ∧ (lidar_driver.ShutdownEvent.stopMotor ∈ lidar_driver.shutdown_safe b1 b2
        ↔ b1 = false)
    ∧ (lidar_driver.ShutdownEvent.warnLog ∈ lidar_driver.shutdown_safe b1 b2
        ↔ (b1 || b2) = true) := by
  cases b1 <;> cases b2 <;> decide

/-! Claim theorems for the validation pipeline (lidar_processing.py). -/

/-- C6: is_valid holds exactly when the ok flag is 1, quality reaches
QUALITY_MIN = 20, and the distance lies in the half-open interval
(DIST_MIN_M, DIST_MAX_M] = (0.20, 10]; in particular a distance exactly at
DIST_MIN_M is invalid and one exactly at DIST_MAX_M is valid when the other
conditions hold. -/
theorem is_valid_contract :
    (lidar_processing.QUALITY_MIN = 20 ∧ lidar_processing.DIST_MIN_M = 1/5
      ∧ lidar_processing.DIST_MAX_M = 10)
    ∧ (∀ s : lidar_driver_csv.LidarSample,
        lidar_processing.is_valid s = true ↔
          (s.ok = 1 ∧ lidar_processing.QUALITY_MIN ≤ s.quality
            ∧ lidar_processing.DIST_MIN_M < s.measure_m
            ∧ s.measure_m ≤ lidar_processing.DIST_MAX_M))
    ∧ (∀ s : lidar_driver_csv.LidarSample, s.measure_m = lidar_processing.DIST_MIN_M →
        lidar_processing.is_valid s = false)
    ∧ (∀ s : lidar_driver_csv.LidarSample, s.ok = 1 →
        lidar_processing.QUALITY_MIN ≤ s.quality →
        s.measure_m = lidar_processing.DIST_MAX_M →
        lidar_processing.is_valid s = true) := by
  have key : ∀ s : lidar_driver_csv.LidarSample,
      lidar_processing.is_valid s = true ↔
        (s.ok = 1 ∧ lidar_processing.QUALITY_MIN ≤ s.quality
          ∧ lidar_processing.DIST_MIN_M < s.measure_m
          ∧ s.measure_m ≤ lidar_processing.DIST_MAX_M) := by
    intro s
    unfold lidar_processing.is_valid
    split_ifs with h1 h2 h3
    · simp only [Bool.false_eq_true, false_iff]
      intro hc
      exact h1 hc.1
    · simp only [Bool.false_eq_true, false_iff]
      intro hc
      exact absurd hc.2.1 (not_le.mpr h2)
    · push_neg at h1
      simp only [true_iff]
      exact ⟨h1, not_lt.mp h2, h3.1, h3.2⟩
    · simp only [Bool.false_eq_true, false_iff]
      intro hc
      exact h3 ⟨hc.2.2.1, hc.2.2.2⟩
  refine ⟨⟨rfl, by norm_num [lidar_processing.DIST_MIN_M],
      by norm_num [lidar_processing.DIST_MAX_M]⟩,
    key, fun s hs => ?_, fun s h1 h2 h3 => ?_⟩
  · rw [Bool.eq_false_iff]
    intro hc
    have := ((key s).mp hc).2.2.1
    rw [hs] at this
    exact lt_irrefl _ this
  · refine (key s).mpr ⟨h1, h2, ?_, by rw [h3]⟩
    rw [h3]
    norm_num [lidar_processing.DIST_MIN_M, lidar_processing.DIST_MAX_M]

/-- C6, witness: a sample at distance exactly 0.20 m is rejected and a
sample at distance exactly 10 m with good flag and quality is accepted. -/
theorem is_valid_contract_witness :
    lidar_processing.is_valid ⟨25, 0, 0.20, 1⟩ = false
    ∧ lidar_processing.is_valid ⟨25, 0, 10.0, 1⟩ = true :=
  ⟨is_valid_contract.2.2.1 ⟨25, 0, 0.20, 1⟩ rfl,
   is_valid_contract.2.2.2 ⟨25, 0, 10.0, 1⟩ rfl (by decide) rfl⟩

/-- C7: filter_and_project returns exactly the subsequence of samples that
pass is_valid, in input order, each mapped to the tuple
(measure_m * cos(rad angle), measure_m * sin(rad angle), quality, angle,
measure_m); in particular its length is the number of valid samples. -/
theorem filter_and_project_contract (radf cosf sinf : ℚ → ℚ)
    (samples : List lidar_driver_csv.LidarSample) :
    lidar_processing.filter_and_project radf cosf sinf samples =
      (samples.filter (fun s => lidar_processing.is_valid s)).map
        (fun s => (s.measure_m * cosf (radf s.angle),
          s.measure_m * sinf (radf s.angle), s.quality, s.angle, s.measure_m))
    ∧ (lidar_processing.filter_and_project radf cosf sinf samples).length =
        samples.countP (fun s => lidar_processing.is_valid s) := by
  have key : lidar_processing.filter_and_project radf cosf sinf samples =
      (samples.filter (fun s => lidar_processing.is_valid s)).map
        (fun s => (s.measure_m * cosf (radf s.angle),
          s.measure_m * sinf (radf s.angle), s.quality, s.angle, s.measure_m)) := by
    induction samples with
    | nil => rfl
    | cons s rest ih =>
      unfold lidar_processing.filter_and_project
      by_cases h : lidar_processing.is_valid s
      · simp [List.filter_cons, h, ih, lidar_processing.polar_to_xy]
      · simp [List.filter_cons, h, ih]
  refine ⟨key, ?_⟩
  rw [key]
  simp [List.countP_eq_length_filter]

/-! Claim theorem for the replay loader (lidar_driver_csv.py). -/

/-- C8: read_scan_csv raises a schema error exactly when the header row
differs from CSV_HEADER in any way, reading zero rows in that case, and on
an exact match loads every row in order with no error. -/
theorem read_scan_csv_schema (header : List String)
    (rows : List lidar_driver_csv.LidarSample) :
    (header ≠ lidar_driver_csv.CSV_HEADER →
      lidar_driver_csv.read_scan_csv header rows = Except.error "Header invalido")
    ∧ (header = lidar_driver_csv.CSV_HEADER →
      lidar_driver_csv.read_scan_csv header rows = Except.ok rows) := by
  have append_loop : ∀ (l acc : List lidar_driver_csv.LidarSample),
      l.foldl (fun samples r => samples ++ [r]) acc = acc ++ l := by
    intro l
    induction l with
    | nil => simp
    | cons r rest ih =>
      intro acc
      simp [List.foldl_cons, ih]
  constructor
  · intro h
    unfold lidar_driver_csv.read_scan_csv
    rw [if_pos h]
  · intro h
    unfold lidar_driver_csv.read_scan_csv
    rw [if_neg (by simp [h]), append_loop]
    simp

/-- C8, witness: the spec header example with dist_m in place of measure_m
is rejected, and the exact header is accepted with its single row loaded. -/
theorem read_scan_csv_schema_witness :
    lidar_driver_csv.read_scan_csv ["quality", "angle", "dist_m", "ok"]
        [⟨50, 0, 1, 1⟩] = Except.error "Header invalido"
    ∧ lidar_driver_csv.read_scan_csv ["quality", "angle", "measure_m", "ok"]
        [⟨50, 0, 1, 1⟩] = Except.ok [⟨50, 0, 1, 1⟩] :=
  ⟨(read_scan_csv_schema _ _).1 (by decide),
   (read_scan_csv_schema _ _).2 rfl⟩

/-! Claim theorems for frame acquisition (lidar_driver.py). -/

/-- Every point kept by the filtering loop of frames satisfies the
acquisition-stage quality and range thresholds. -/
theorem lidar_driver.framePts_sound (scan : List lidar_driver.RawPoint)
    (p : lidar_driver.ScanPoint) (hp : p ∈ lidar_driver.framePts scan) :
    lidar_driver.QUALITY_MIN ≤ (p.1 : ℚ) ∧ lidar_driver.DIST_MIN_MM ≤ p.2.2
      ∧ p.2.2 ≤ lidar_driver.DIST_MAX_MM := by
  induction scan with
  | nil => simp [lidar_driver.framePts] at hp
  | cons hd rest ih =>
    obtain ⟨q, a, d⟩ := hd
    unfold lidar_driver.framePts at hp
    split_ifs at hp with h1 h2
    · exact ih hp
    · rcases List.mem_cons.mp hp with heq | hmem
      · subst heq
        push_neg at h1
        refine ⟨?_, h2.1, h2.2⟩
        have hq : lidar_driver.QUALITY_MIN ≤ q := h1.2
        have hq0 : ¬ q < 0 := by
          intro hlt
          have : (0 : ℚ) < lidar_driver.QUALITY_MIN := by
            norm_num [lidar_driver.QUALITY_MIN]
          linarith
        simp only [lidar_driver.pyInt, if_neg hq0]
        have hfl : (10 : ℤ) ≤ ⌊q⌋ := by
          rw [Int.le_floor]
          have h10 : lidar_driver.QUALITY_MIN = (10 : ℚ) := rfl
          push_cast
          linarith [hq, h10 ▸ hq]
        calc lidar_driver.QUALITY_MIN = ((10 : ℤ) : ℚ) := by
              norm_num [lidar_driver.QUALITY_MIN]
          _ ≤ (⌊q⌋ : ℚ) := by exact_mod_cast hfl
      · exact ih hmem
    · exact ih hp

/-- Every frame produced by the generator loop is nonempty and all its
points satisfy the acquisition thresholds. -/
theorem lidar_driver.framesAux_sound (time : Nat → ℚ) (k : Nat)
    (scans : List (List lidar_driver.RawPoint)) (fr : lidar_driver.ScanFrame)
    (h : fr ∈ lidar_driver.framesAux time k scans) :
    fr.pts ≠ [] ∧ ∀ p ∈ fr.pts,
      lidar_driver.QUALITY_MIN ≤ (p.1 : ℚ) ∧ lidar_driver.DIST_MIN_MM ≤ p.2.2
        ∧ p.2.2 ≤ lidar_driver.DIST_MAX_MM := by
  induction scans generalizing k with
  | nil => simp [lidar_driver.framesAux] at h
  | cons scan rest ih =>
    rw [lidar_driver.framesAux] at h
    by_cases hp : lidar_driver.framePts scan = []
    · rw [if_pos hp] at h
      exact ih k h
    · rw [if_neg hp] at h
      rcases List.mem_cons.mp h with heq | hmem
      · subst heq
        exact ⟨hp, fun p hp' => lidar_driver.framePts_sound scan p hp'⟩
      · exact ih (k + 1) hmem

/-- C9: every frame yielded by LidarDriver.frames holds at least one point,
and none of its points has a distance that is zero or negative. -/
theorem frames_nonempty_and_positive (time : Nat → ℚ)
    (scans : List (List lidar_driver.RawPoint)) (fr : lidar_driver.ScanFrame)
    (h : fr ∈ lidar_driver.frames time scans) :
    fr.pts ≠ [] ∧ ∀ p ∈ fr.pts, ¬ (p.2.2 ≤ 0) := by
  obtain ⟨hne, hall⟩ := lidar_driver.framesAux_sound time 0 scans fr h
  refine ⟨hne, fun p hp => ?_⟩
  have hd := (hall p hp).2.1
  intro hle
  have h150 : lidar_driver.DIST_MIN_MM = 150 := rfl
  rw [h150] at hd
  linarith

/-- C9, witness: a raw scan with the single point (15, 0, 200) yields one
frame whose point list is nonempty and whose distance 200 is positive. -/
theorem frames_nonempty_and_positive_witness :
    ([((15 : ℤ), (0 : ℚ), (200 : ℚ))] : List lidar_driver.ScanPoint) ≠ []
    ∧ ¬ ((200 : ℚ) ≤ 0) :=
  ⟨(frames_nonempty_and_positive (fun _ => 0) [[(15, 0, 200)]]
      ⟨0, [((15 : ℤ), (0 : ℚ), (200 : ℚ))]⟩ (by decide)).1,
   (frames_nonempty_and_positive (fun _ => 0) [[(15, 0, 200)]]
      ⟨0, [((15 : ℤ), (0 : ℚ), (200 : ℚ))]⟩ (by decide)).2
     ((15 : ℤ), (0 : ℚ), (200 : ℚ)) (by decide)⟩

/-- C10: every point of every yielded frame already satisfies the
acquisition-stage filter: quality at least QUALITY_MIN = 10 and distance in
the inclusive range [DIST_MIN_MM, DIST_MAX_MM] = [150, 12000]. -/
theorem frames_points_acquisition_filter (time : Nat → ℚ)
    (scans : List (List lidar_driver.RawPoint)) (fr : lidar_driver.ScanFrame)
    (h : fr ∈ lidar_driver.frames time scans) :
    (lidar_driver.QUALITY_MIN = 10 ∧ lidar_driver.DIST_MIN_MM = 150
      ∧ lidar_driver.DIST_MAX_MM = 12000)
    ∧ ∀ p ∈ fr.pts, lidar_driver.QUALITY_MIN ≤ (p.1 : ℚ)
        ∧ lidar_driver.DIST_MIN_MM ≤ p.2.2 ∧ p.2.2 ≤ lidar_driver.DIST_MAX_MM :=
  ⟨⟨rfl, rfl, rfl⟩, (lidar_driver.framesAux_sound time 0 scans fr h).2⟩

/-- C10, witness: the point (15, 0, 200) of the yielded frame satisfies the
acquisition thresholds. -/
theorem frames_points_acquisition_filter_witness :
    lidar_driver.QUALITY_MIN ≤ ((15 : ℤ) : ℚ)
    ∧ lidar_driver.DIST_MIN_MM ≤ (200 : ℚ)
    ∧ (200 : ℚ) ≤ lidar_driver.DIST_MAX_MM :=
  (frames_points_acquisition_filter (fun _ => 0) [[(15, 0, 200)]]
      ⟨0, [((15 : ℤ), (0 : ℚ), (200 : ℚ))]⟩ (by decide)).2
    ((15 : ℤ), (0 : ℚ), (200 : ℚ)) (by decide)

/-! Helper lemmas for the decimation loop of record_scan.py. -/

namespace record_scan

variable {α : Type}

/-- Only the counter value modulo the factor matters to the loop. -/
theorem decimationLoop_congr_mod (n : Nat) (l : List α) :
    ∀ c₁ c₂ : Nat, c₁ % n = c₂ % n →
      decimationLoop n c₁ l = decimationLoop n c₂ l := by
  induction l with
  | nil => intro c₁ c₂ _; rfl
  | cons p ps ih =>
    intro c₁ c₂ h
    have h' : (c₁ + 1) % n = (c₂ + 1) % n := by
      rw [Nat.add_mod, h, ← Nat.add_mod]
    simp only [decimationLoop, h']
    rw [ih (c₁ + 1) (c₂ + 1) h']

/-- The loop distributes over concatenation, advancing the counter. -/
theorem decimationLoop_append (n : Nat) (ys : List α) :
    ∀ (xs : List α) (c : Nat), decimationLoop n c (xs ++ ys) =
      decimationLoop n c xs ++ decimationLoop n (c + xs.length) ys := by
  intro xs
  induction xs with
  | nil => intro c; simp [decimationLoop]
  | cons p ps ih =>
    intro c
    show decimationLoop n c (p :: (ps ++ ys)) = _
    simp only [decimationLoop, List.length_cons]
    have harith : c + 1 + ps.length = c + (ps.length + 1) := by omega
    by_cases hz : (c + 1) % n ≠ 0
    · rw [if_pos hz, if_pos hz, ih (c + 1), harith]
    · rw [if_neg hz, if_neg hz, ih (c + 1), harith]
      rfl

/-- The per-frame loop with its global counter equals one decimation pass
over the flattened point stream. -/
theorem recordAux_eq_flatten (n : Nat) (frames : List (List α)) :
    ∀ c : Nat, recordAux n c frames = decimationLoop n c frames.flatten := by
  induction frames with
  | nil => intro c; rfl
  | cons fr frs ih =>
    intro c
    simp only [recordAux, List.flatten_cons,
      decimationLoop_append n frs.flatten fr c, ih]

/-- A stream too short to reach the next multiple of the factor yields
nothing. -/
theorem decimationLoop_short (n : Nat) (l : List α) :
    ∀ c : Nat, c < n → l.length < n - c → decimationLoop n c l = [] := by
  induction l with
  | nil => intro c _ _; rfl
  | cons p ps ih =>
    intro c hc hl
    simp only [List.length_cons] at hl
    have hc1 : c + 1 < n := by omega
    have hz : (c + 1) % n ≠ 0 := by
      rw [Nat.mod_eq_of_lt hc1]
      omega
    simp only [decimationLoop, if_pos hz]
    exact ih (c + 1) hc1 (by omega)

/-- The loop skips the points before the next multiple of the factor,
keeps that point, and restarts with counter zero. -/
theorem decimationLoop_chunk (n : Nat) (x : α) (rest : List α) :
    ∀ (pre : List α) (c : Nat), c < n → pre.length = n - c - 1 →
      decimationLoop n c (pre ++ x :: rest) = x :: decimationLoop n 0 rest := by
  intro pre
  induction pre with
  | nil =>
    intro c hc hlen
    simp only [List.length_nil] at hlen
    have hcn : c + 1 = n := by omega
    have hz : ¬ ((c + 1) % n ≠ 0) := by
      rw [hcn, Nat.mod_self]
      omega
    simp only [List.nil_append, decimationLoop, if_neg hz]
    rw [decimationLoop_congr_mod n rest (c + 1) 0
      (by rw [hcn, Nat.mod_self, Nat.zero_mod])]
  | cons q pre ih =>
    intro c hc hlen
    simp only [List.length_cons] at hlen
    have hc1 : c + 1 < n := by omega
    have hz : (c + 1) % n ≠ 0 := by
      rw [Nat.mod_eq_of_lt hc1]
      omega
    show decimationLoop n c (q :: (pre ++ x :: rest)) = _
    simp only [decimationLoop, if_pos hz]
    exact ih (c + 1) hc1 (by omega)

/-- Unfolding step on a stream reaching the factor: the point at position
n is kept and decimation continues on the rest. -/
theorem decimate_step (n : Nat) (hn : 0 < n) (l : List α) (hnl : n ≤ l.length) :
    decimate n l = l.get ⟨n - 1, Nat.lt_of_lt_of_le (Nat.sub_lt hn Nat.one_pos) hnl⟩ ::
      decimate n (l.drop n) := by
  have hidx : n - 1 < l.length := Nat.lt_of_lt_of_le (Nat.sub_lt hn Nat.one_pos) hnl
  have hdrop : l.drop (n - 1) = l[n - 1] :: l.drop n := by
    have hn1 : n - 1 + 1 = n := Nat.succ_pred_eq_of_pos hn
    rw [List.drop_eq_getElem_cons hidx, hn1]
  have hsplit : l = l.take (n - 1) ++ (l[n - 1] :: l.drop n) := by
    conv_lhs => rw [← List.take_append_drop (n - 1) l]
    rw [hdrop]
  have hlen : (l.take (n - 1)).length = n - 0 - 1 := by
    rw [List.length_take_of_le (by omega)]
    rfl
  show decimationLoop n 0 l = _
  conv_lhs => rw [hsplit]
  rw [decimationLoop_chunk n (l[n - 1]) (l.drop n) (l.take (n - 1)) 0 hn hlen]
  congr 1

/-- Decimation by a positive factor keeps exactly length / n points. -/
theorem decimate_length (n : Nat) (hn : 0 < n) (l : List α) :
    (decimate n l).length = l.length / n := by
  suffices H : ∀ (L : Nat) (l : List α), l.length ≤ L →
      (decimate n l).length = l.length / n from H l.length l le_rfl
  intro L
  induction L with
  | zero =>
    intro l hl
    have : l = [] := List.length_eq_zero.mp (by omega)
    subst this
    simp [decimate, decimationLoop]
  | succ L ih =>
    intro l hl
    by_cases hsh : l.length < n
    · have h0 : decimate n l = [] := decimationLoop_short n l 0 hn (by omega)
      rw [h0, Nat.div_eq_of_lt hsh]
      rfl
    · push_neg at hsh
      rw [decimate_step n hn l hsh]
      simp only [List.length_cons]
      rw [ih (l.drop n) (by simp [List.length_drop]; omega)]
      rw [List.length_drop]
      rw [Nat.div_eq_sub_div hn hsh]

/-- The j-th retained point is the raw point at position (j + 1) * n. -/
theorem decimate_getElem? (n : Nat) (hn : 0 < n) (l : List α) (j : Nat) :
    (decimate n l)[j]? = l[(j + 1) * n - 1]? := by
  suffices H : ∀ (L : Nat) (l : List α), l.length ≤ L → ∀ j : Nat,
      (decimate n l)[j]? = l[(j + 1) * n - 1]? from H l.length l le_rfl j
  intro L
  induction L with
  | zero =>
    intro l hl j
    have : l = [] := List.length_eq_zero.mp (by omega)
    subst this
    simp [decimate, decimationLoop]
  | succ L ih =>
    intro l hl j
    by_cases hsh : l.length < n
    · have h0 : decimate n l = [] := decimationLoop_short n l 0 hn (by omega)
      obtain ⟨m, hm⟩ : ∃ m, (j + 1) * n = m := ⟨_, rfl⟩
      have hnm : n ≤ m := by
        rw [← hm]
        exact Nat.le_mul_of_pos_left n (Nat.succ_pos j)
      have hr : l[(j + 1) * n - 1]? = none := by
        rw [hm]
        exact List.getElem?_eq_none (by omega)
      rw [h0, hr]
      simp
    · push_neg at hsh
      rw [decimate_step n hn l hsh]
      cases j with
      | zero =>
        rw [List.getElem?_cons_zero, List.get_eq_getElem,
          List.getElem?_eq_getElem (by omega)]
        congr 1
        congr 1
        show n - 1 = (0 + 1) * n - 1
        omega
      | succ j =>
        rw [List.getElem?_cons_succ]
        rw [ih (l.drop n) (by simp [List.length_drop]; omega) j]
        rw [List.getElem?_drop]
        congr 1
        obtain ⟨m, hm⟩ : ∃ m, (j + 1) * n = m := ⟨_, rfl⟩
        have hm2 : (j + 1 + 1) * n = m + n := by
          rw [← hm]
          ring
        have hmn : 1 ≤ m := by
          rw [← hm]
          exact Nat.one_le_iff_ne_zero.mpr
            (Nat.mul_ne_zero (Nat.succ_ne_zero j) (by omega))
        rw [hm, hm2]
        omega

/-- Factor one is an exact passthrough. -/
theorem decimate_one (l : List α) : decimate 1 l = l := by
  suffices H : ∀ c : Nat, decimationLoop 1 c l = l from H 0
  induction l with
  | nil => intro c; rfl
  | cons p ps ih =>
    intro c
    have hz : ¬ ((c + 1) % 1 ≠ 0) := by
      simp [Nat.mod_one]
    simp only [decimationLoop, if_neg hz]
    rw [ih (c + 1)]

end record_scan

/-- C5: the recorder keeps exactly the points at raw positions n, 2n, 3n,
... of the pre-filter stream, counted by one global counter running across
frames, retaining exactly floor(L / n) of L points; factor 1 passes every
point through unchanged; a factor below 1 is rejected as a configuration
error before any streaming. -/
theorem record_scan_decimation {α : Type} (n : Nat) (hn : 1 ≤ n)
    (frames : List (List α)) :
    record_scan.recordAux n 0 frames = record_scan.decimate n frames.flatten
    ∧ (record_scan.decimate n frames.flatten).length = frames.flatten.length / n
    ∧ (∀ j : Nat, (record_scan.decimate n frames.flatten)[j]? =
        frames.flatten[(j + 1) * n - 1]?)
    ∧ (∀ l : List α, record_scan.decimate 1 l = l)
    ∧ (∀ m : Int, m < 1 → record_scan.main m frames =
        Except.error "El factor de decimacion debe ser >= 1") :=
  ⟨record_scan.recordAux_eq_flatten n frames 0,
   record_scan.decimate_length n hn frames.flatten,
   fun j => record_scan.decimate_getElem? n hn frames.flatten j,
   record_scan.decimate_one,
   fun m hm => by unfold record_scan.main; rw [if_pos hm]⟩

/-- C5, witness: with factor 2 over the frames [1,2,3] and [4,5] the
recorder keeps the points 2 and 4, that is 5 / 2 = 2 points; factor 1
passes [7] through; factor 0 is rejected. -/
theorem record_scan_decimation_witness :
    record_scan.decimate 2 [(1 : Nat), 2, 3, 4, 5] = [2, 4]
    ∧ record_scan.recordAux 2 0 [[(1 : Nat), 2, 3], [4, 5]] =
        record_scan.decimate 2 ([[(1 : Nat), 2, 3], [4, 5]]).flatten
    ∧ (record_scan.decimate 2 ([[(1 : Nat), 2, 3], [4, 5]]).flatten).length =
        ([[(1 : Nat), 2, 3], [4, 5]]).flatten.length / 2
    ∧ (record_scan.decimate 2 ([[(1 : Nat), 2, 3], [4, 5]]).flatten)[0]? =
        ([[(1 : Nat), 2, 3], [4, 5]]).flatten[1]?
    ∧ record_scan.decimate 1 [(7 : Nat)] = [7]
    ∧ record_scan.main 0 [[(1 : Nat), 2, 3], [4, 5]] =
        Except.error "El factor de decimacion debe ser >= 1" := by
  have h := record_scan_decimation 2 (by omega) [[(1 : Nat), 2, 3], [4, 5]]
  exact ⟨by decide, h.1, h.2.1, h.2.2.1 0, h.2.2.2.1 [7], h.2.2.2.2 0 (by omega)⟩

